import Mathlib

/-!
# Verification of the Keller-Segel / Brusselator simulation repository

Shallow embedding of the repository's authored code:

* `simulationCases/keller-segel.c` — a Basilisk case file which in fact contains
  two case programs (the Keller-Segel placeholder and the Brusselator case it was
  copied from).  Machine doubles are embedded as exact rationals `ℚ`; the value
  `nu = sqrt(1/D)` computed by `init` is threaded as an explicit parameter since
  square roots are not rational.
* `runCases.sh` and `cleanup.sh` — the build/run and cleanup shell scripts,
  embedded as functions over a small filesystem model.

The external Basilisk framework (`grid/multigrid.h`, `run.h`, `diffusion.h`) is
not part of the repository; where its behaviour decides a claim it is modelled
from the spec's description (the time-implicit diffusion solve).
-/

/-- Grid point of the configured `init_grid (128)` 2D multigrid: 128 × 128 cells. -/
abbrev Idx : Type := Fin 128 × Fin 128

/-- A scalar field over the grid (Basilisk `scalar`), doubles embedded as `ℚ`. -/
abbrev GridField : Type := Idx → ℚ

/-- Cell size `Delta = L0 / N` of the configured grid: `size (64)` over 128 cells. -/
def Delta : ℚ := 64 / 128

/-- Index of the right/upper neighbour; clamped at the boundary, which realises
the framework's default symmetry (zero-flux) boundary condition: the ghost cell
mirrors the boundary cell, so its finite-difference contribution vanishes. -/
def upIdx (i : Fin 128) : Fin 128 :=
  if h : i.val + 1 < 128 then ⟨i.val + 1, h⟩ else i

/-- Index of the left/lower neighbour, clamped at the boundary (symmetry BC). -/
def downIdx (i : Fin 128) : Fin 128 :=
  if 0 < i.val then ⟨i.val - 1, lt_of_le_of_lt (Nat.sub_le _ _) i.isLt⟩ else i

/-- Five-point discrete Laplacian on the configured grid with symmetry boundary
conditions (the spatial operator of the framework's diffusion solve). -/
def lap (f : GridField) (p : Idx) : ℚ :=
  ((f (upIdx p.1, p.2) - f p) + (f (downIdx p.1, p.2) - f p)
      + (f (p.1, upIdx p.2) - f p) + (f (p.1, downIdx p.2) - f p)) / Delta ^ 2

/-- Modelled from the spec: the repository delegates the diffusion update to the
external framework's time-implicit diffusion solver (`diffusion.h`), which is
not part of this repository.  Per the case files' own documentation it advances
`∂t C = Dc ∇²C + β C + r` by one backward-Euler step: the returned field `Cnew`
satisfies the implicit equation at every grid point. -/
def solves (Dc dt : ℚ) (r beta Cold Cnew : GridField) : Prop :=
  ∀ p, Cnew p - Cold p = dt * (Dc * lap Cnew p + beta p * Cnew p + r p)

theorem lap_const (c : ℚ) (p : Idx) : lap (fun _ => c) p = 0 := by
  simp [lap]

theorem lap_sub (f g : GridField) (p : Idx) :
    lap (fun q => f q - g q) p = lap f p - lap g p := by
  simp only [lap]
  ring

theorem lap_nonpos_of_max (e : GridField) (p0 : Idx) (hmax : ∀ q, e q ≤ e p0) :
    lap e p0 ≤ 0 := by
  have h1 := hmax (upIdx p0.1, p0.2)
  have h2 := hmax (downIdx p0.1, p0.2)
  have h3 := hmax (p0.1, upIdx p0.2)
  have h4 := hmax (p0.1, downIdx p0.2)
  have hd : (0 : ℚ) ≤ Delta ^ 2 := by positivity
  exact div_nonpos_of_nonpos_of_nonneg (by linarith) hd

/-- Discrete maximum principle for the implicit step: with a nonnegative
timestep, nonnegative diffusion coefficient and nonpositive reaction
coefficient `beta`, any two solutions of the implicit system from the same
previous state are pointwise comparable. -/
theorem solves_le (Dc dt : ℚ) (r beta Cold X Y : GridField)
    (hdt : 0 ≤ dt) (hD : 0 ≤ Dc) (hb : ∀ p, beta p ≤ 0)
    (hX : solves Dc dt r beta Cold X) (hY : solves Dc dt r beta Cold Y) :
    ∀ p, X p ≤ Y p := by
  obtain ⟨p0, hp0⟩ := Finite.exists_max (fun q => X q - Y q)
  have hXp := hX p0
  have hYp := hY p0
  have key : (1 - dt * beta p0) * (X p0 - Y p0)
      = dt * Dc * lap (fun q => X q - Y q) p0 := by
    rw [lap_sub]
    linear_combination hXp - hYp
  have hlapn : lap (fun q => X q - Y q) p0 ≤ 0 :=
    lap_nonpos_of_max _ _ hp0
  have hrhs : dt * Dc * lap (fun q => X q - Y q) p0 ≤ 0 :=
    mul_nonpos_of_nonneg_of_nonpos (mul_nonneg hdt hD) hlapn
  have hpos : 0 < 1 - dt * beta p0 := by
    have := mul_nonpos_of_nonneg_of_nonpos hdt (hb p0)
    linarith
  have he0 : X p0 - Y p0 ≤ 0 := by
    by_contra hcon
    push_neg at hcon
    have hgt : 0 < (1 - dt * beta p0) * (X p0 - Y p0) := mul_pos hpos hcon
    rw [key] at hgt
    linarith
  intro p
  have := hp0 p
  linarith

/-- Uniqueness of the implicit diffusion solve under the maximum-principle
hypotheses. -/
theorem solves_unique (Dc dt : ℚ) (r beta Cold X Y : GridField)
    (hdt : 0 ≤ dt) (hD : 0 ≤ Dc) (hb : ∀ p, beta p ≤ 0)
    (hX : solves Dc dt r beta Cold X) (hY : solves Dc dt r beta Cold Y) :
    X = Y :=
  funext fun p =>
    le_antisymm (solves_le Dc dt r beta Cold X Y hdt hD hb hX hY p)
      (solves_le Dc dt r beta Cold Y X hdt hD hb hY hX p)

/-- The global mutable state a case file owns: the derived parameter `kb`
(a global double set by `event init`) and the two scalar fields `C1`, `C2`. -/
structure SimState where
  kb : ℚ
  c1 : GridField
  c2 : GridField

theorem SimState.ext_iff' (s s' : SimState) :
    s = s' ↔ s.kb = s'.kb ∧ s.c1 = s'.c1 ∧ s.c2 = s'.c2 := by
  constructor
  · rintro rfl
    exact ⟨rfl, rfl, rfl⟩
  · rcases s with ⟨a, b, c⟩
    rcases s' with ⟨a', b', c'⟩
    rintro ⟨h1, h2, h3⟩
    cases h1
    cases h2
    cases h3
    rfl

/-- The sequence of top-level calls made by a case file's `main()`. -/
inductive MainCmd where
  | initGrid (n : ℕ)
  | setSize (l : ℚ)
  | setTolerance (tol : ℚ)
  | setMu (m : ℚ)
  | runCase
deriving DecidableEq

/-- Is this command one of the grid-configuration calls (`init_grid`/`size`)? -/
def isGridCmd : MainCmd → Bool
  | MainCmd.initGrid _ => true
  | MainCmd.setSize _ => true
  | _ => false

/-- Is this command a `run()` call? -/
def isRunCmd : MainCmd → Bool
  | MainCmd.runCase => true
  | _ => false

/-- Output file name: either a literal (`"f.mp4"`) or the `sprintf` pattern
`"mu-%g.png"` which encodes the control parameter `mu` in the name. -/
inductive FileName where
  | lit (s : String)
  | muName (pre : String) (mu : ℚ) (suf : String)
deriving DecidableEq

/-- Arguments of an `output_ppm` call as used by the case files. -/
structure PpmSpec where
  file : FileName
  n : ℕ
  linearInterp : Bool
  spread : ℚ
deriving DecidableEq

/-- One observable output action of a case program: a raster frame written by
`output_ppm`, or a progress line written to stderr by `fprintf (stderr, ...)`
carrying the iteration index, time, timestep and both solver iteration counts. -/
inductive OutputAct where
  | ppm (spec : PpmSpec) (field : GridField)
  | stderrLine (i : ℕ) (t dt : ℚ) (mg1 mg2 : ℕ)

/-- Is this output action a progress line on stderr? -/
def isProgressLine : OutputAct → Bool
  | OutputAct.stderrLine _ _ _ _ _ => true
  | _ => false

/-- One call to the framework's `diffusion` routine, as made by the
`integration` event: whether the anisotropic coefficient `{D, D}` was passed,
the field being advanced, and the source/coefficient fields `r`, `beta`. -/
structure DiffCall where
  usesD : Bool
  input : GridField
  r : GridField
  beta : GridField

/-- The two scratch fields `scalar r[], beta[]` declared once by the
`integration` event and reused (overwritten) between the two solves. -/
structure Scratch where
  r : GridField
  beta : GridField

namespace KellerSegel

/-! Embedding of the first case program in `simulationCases/keller-segel.c`
(the Keller-Segel placeholder, which the file itself documents as being
"currently configured as a Brusselator example"). -/

/-- `double k = 1.` — reaction rate. -/
def k : ℚ := 1

/-- `double ka = 4.5` — production parameter. -/
def ka : ℚ := 9 / 2

/-- `double D = 8.` — diffusion coefficient of `C2`. -/
def D : ℚ := 8

/-- `kb = sq(1. + ka*nu)*(1. + mu)` computed by `event init`, as a function of
`nu` (the double value of `sqrt(1./D)`, threaded as a parameter since it is
irrational) and the control parameter `mu`. -/
def kbOf (nu mu : ℚ) : ℚ := (1 + ka * nu) ^ 2 * (1 + mu)

/-- `event init (i = 0)`: sets the global `kb` and overwrites both fields at
every grid point (`C1[] = ka; C2[] = kb/ka + 0.01*noise()`).  `noise` is the
framework's random field (values in `[-1,1]`), threaded as a parameter; the
previous state `_prev` is taken as an argument only to express that the result
does not depend on it. -/
def initEvent (nu mu : ℚ) (noise : GridField) (_prev : SimState) : SimState :=
  { kb := kbOf nu mu
    c1 := fun _ => ka
    c2 := fun p => kbOf nu mu / ka + (1 / 100) * noise p }

/-- The calls made by `main()`: `init_grid (128); size (64); TOLERANCE = 1e-4;`
then `mu = 0.04; run(); mu = 0.1; run(); mu = 0.98; run();`. -/
def mainProgram : List MainCmd :=
  [MainCmd.initGrid 128, MainCmd.setSize 64, MainCmd.setTolerance (1 / 10000),
   MainCmd.setMu (4 / 100), MainCmd.runCase,
   MainCmd.setMu (1 / 10), MainCmd.runCase,
   MainCmd.setMu (98 / 100), MainCmd.runCase]

/-- Schedule of `event movie (i = 1; i += 10)`: fires at iterations
1, 11, 21, …. -/
def movieFires (i : ℕ) : Bool :=
  decide (1 ≤ i) && decide ((i - 1) % 10 = 0)

/-- Body of `event movie`: one `output_ppm` frame of `C1` to `f.mp4` and one
progress line `fprintf (stderr, "%d %g %g %d %d\n", i, t, dt, mgd1.i, mgd2.i)`. -/
def movieEvent (i : ℕ) (t dt : ℚ) (mg1 mg2 : ℕ) (c1 : GridField) : List OutputAct :=
  [OutputAct.ppm ⟨FileName.lit ("f.mp4"), 200, true, 2⟩ c1,
   OutputAct.stderrLine i t dt mg1 mg2]

/-- The output produced at time-loop iteration `i`: the movie event's output
when its schedule fires, nothing otherwise (no other event writes output
during the loop). -/
def iterationOutput (i : ℕ) (t dt : ℚ) (mg1 mg2 : ℕ) (c1 : GridField) : List OutputAct :=
  if movieFires i then movieEvent i t dt mg1 mg2 c1 else []

/-- `event final (t = 3000)` fires at this simulation time. -/
def finalTime : ℚ := 3000

/-- Body of `event final`: one `output_ppm` image of `C1` to `mu-%g.png`. -/
def finalEvent (mu : ℚ) (c1 : GridField) : List OutputAct :=
  [OutputAct.ppm ⟨FileName.muName ("mu-") mu (".png"), 200, true, 2⟩ c1]

/-- Dataflow of `event integration (i++)`, with the two framework `diffusion`
calls abstracted as oracles `solve1`, `solve2` (each mapping the input field
and the `r`, `beta` scratch fields to the updated field).  Returns the updated
state, the final contents of the reused scratch fields, and the trace of the
two diffusion calls in order. -/
def integrationEvent (solve1 solve2 : GridField → GridField → GridField → GridField)
    (s : SimState) : SimState × Scratch × List DiffCall :=
  let r1 : GridField := fun _ => k * ka
  let beta1 : GridField := fun p => k * (s.c1 p * s.c2 p - s.kb - 1)
  let c1n := solve1 s.c1 r1 beta1
  let r2 : GridField := fun p => k * s.kb * c1n p
  let beta2 : GridField := fun p => -(k * (c1n p) ^ 2)
  let c2n := solve2 s.c2 r2 beta2
  ({ kb := s.kb, c1 := c1n, c2 := c2n },
   { r := r2, beta := beta2 },
   [{ usesD := false, input := s.c1, r := r1, beta := beta1 },
    { usesD := true, input := s.c2, r := r2, beta := beta2 }])

/-- One step of `event integration (i++)` with the diffusion calls given their
modelled implicit semantics: `dt = dtnext (1.)` is some timestep in `[0, 1]`;
the first solve advances `C1` (unit diffusion coefficient) with
`r = k*ka`, `beta = k*(C1*C2 - kb - 1)` computed from the pre-step fields;
the second advances `C2` (coefficient `{D, D}`) with `r = k*kb*C1`,
`beta = -k*sq(C1)` computed from the already-updated `C1`; `kb` is untouched. -/
def integrationStep (s s' : SimState) : Prop :=
  s'.kb = s.kb ∧ ∃ dt : ℚ, 0 ≤ dt ∧ dt ≤ 1 ∧
    solves 1 dt (fun _ => k * ka) (fun p => k * (s.c1 p * s.c2 p - s.kb - 1))
      s.c1 s'.c1 ∧
    solves D dt (fun p => k * s.kb * s'.c1 p) (fun p => -(k * (s'.c1 p) ^ 2))
      s.c2 s'.c2

/-- `n` consecutive integration steps. -/
def steps : ℕ → SimState → SimState → Prop
  | 0, s, s' => s' = s
  | n + 1, s, s' => ∃ m, integrationStep s m ∧ steps n m s'

/-- The stationary solution `C1 = ka`, `C2 = kb/ka` (zero perturbation). -/
def statState (kb : ℚ) : SimState :=
  { kb := kb, c1 := fun _ => ka, c2 := fun _ => kb / ka }

end KellerSegel

namespace Brusselator

/-! Embedding of the second case program in `simulationCases/keller-segel.c`
(the actual Brusselator case the placeholder was copied from). -/

/-- `double k = 1.` — reaction rate constant. -/
def k : ℚ := 1

/-- `double ka = 4.5` — parameter controlling `C1` production. -/
def ka : ℚ := 9 / 2

/-- `double D = 8.` — diffusion coefficient ratio for `C2`. -/
def D : ℚ := 8

/-- `kb = sq(1. + ka*nu)*(1. + mu)` computed by `event init`. -/
def kbOf (nu mu : ℚ) : ℚ := (1 + ka * nu) ^ 2 * (1 + mu)

/-- `event init (i = 0)`: `C1[] = ka; C2[] = kb/ka + 0.01*noise()`. -/
def initEvent (nu mu : ℚ) (noise : GridField) (_prev : SimState) : SimState :=
  { kb := kbOf nu mu
    c1 := fun _ => ka
    c2 := fun p => kbOf nu mu / ka + (1 / 100) * noise p }

/-- The calls made by `main()`. -/
def mainProgram : List MainCmd :=
  [MainCmd.initGrid 128, MainCmd.setSize 64, MainCmd.setTolerance (1 / 10000),
   MainCmd.setMu (4 / 100), MainCmd.runCase,
   MainCmd.setMu (1 / 10), MainCmd.runCase,
   MainCmd.setMu (98 / 100), MainCmd.runCase]

/-- Schedule of `event movie (i = 1; i += 10)`. -/
def movieFires (i : ℕ) : Bool :=
  decide (1 ≤ i) && decide ((i - 1) % 10 = 0)

/-- Body of `event movie`. -/
def movieEvent (i : ℕ) (t dt : ℚ) (mg1 mg2 : ℕ) (c1 : GridField) : List OutputAct :=
  [OutputAct.ppm ⟨FileName.lit ("f.mp4"), 200, true, 2⟩ c1,
   OutputAct.stderrLine i t dt mg1 mg2]

/-- Output at time-loop iteration `i`. -/
def iterationOutput (i : ℕ) (t dt : ℚ) (mg1 mg2 : ℕ) (c1 : GridField) : List OutputAct :=
  if movieFires i then movieEvent i t dt mg1 mg2 c1 else []

/-- `event final (t = 3000)` fires at this simulation time. -/
def finalTime : ℚ := 3000

/-- Body of `event final`. -/
def finalEvent (mu : ℚ) (c1 : GridField) : List OutputAct :=
  [OutputAct.ppm ⟨FileName.muName ("mu-") mu (".png"), 200, true, 2⟩ c1]

/-- Dataflow of `event integration (i++)` with the diffusion solves as
oracles. -/
def integrationEvent (solve1 solve2 : GridField → GridField → GridField → GridField)
    (s : SimState) : SimState × Scratch × List DiffCall :=
  let r1 : GridField := fun _ => k * ka
  let beta1 : GridField := fun p => k * (s.c1 p * s.c2 p - s.kb - 1)
  let c1n := solve1 s.c1 r1 beta1
  let r2 : GridField := fun p => k * s.kb * c1n p
  let beta2 : GridField := fun p => -(k * (c1n p) ^ 2)
  let c2n := solve2 s.c2 r2 beta2
  ({ kb := s.kb, c1 := c1n, c2 := c2n },
   { r := r2, beta := beta2 },
   [{ usesD := false, input := s.c1, r := r1, beta := beta1 },
    { usesD := true, input := s.c2, r := r2, beta := beta2 }])

/-- One step of `event integration (i++)` under the modelled implicit
diffusion semantics. -/
def integrationStep (s s' : SimState) : Prop :=
  s'.kb = s.kb ∧ ∃ dt : ℚ, 0 ≤ dt ∧ dt ≤ 1 ∧
    solves 1 dt (fun _ => k * ka) (fun p => k * (s.c1 p * s.c2 p - s.kb - 1))
      s.c1 s'.c1 ∧
    solves D dt (fun p => k * s.kb * s'.c1 p) (fun p => -(k * (s'.c1 p) ^ 2))
      s.c2 s'.c2

end Brusselator

namespace Scripts

/-! Embedding of `runCases.sh` and `cleanup.sh`.  Both scripts run under
`set -euo pipefail`: the first failing command aborts the script with that
command's exit status.  The filesystem is modelled as lists of directory and
file paths rooted at the repository; `SCRIPT_DIR` is `simulationCases`.
External tools (`cp`, `qcc`, the built binary, `rm`) are modelled through an
environment giving their exit statuses and stderr output; `cp` fails exactly
when the source file is absent. -/

/-- Filesystem model: the directories and regular files that exist. -/
structure FS where
  dirs : List String
  files : List String
deriving DecidableEq

/-- A command executed by one of the scripts. -/
inductive Action where
  | mkdirP (d : String)
  | copyFile (src dst : String)
  | compile (src out : String)
  | execute (cwd bin : String)
  | removeDir (d : String)
deriving DecidableEq

/-- Result of running a script: exit status, stderr lines, final filesystem,
and the trace of commands that were run (in order). -/
structure Outcome where
  exitCode : ℕ
  stderr : List String
  fs : FS
  trace : List Action
deriving DecidableEq

/-- Exit statuses and stderr output of the external commands invoked by
`runCases.sh`: the `qcc` compile and the executed case binary (`cp`'s
failure message is also given here). -/
structure Env where
  compileExit : ℕ
  compileMsg : List String
  execExit : ℕ
  execMsg : List String
  cpMsg : List String
deriving DecidableEq

/-- `SCRIPT_DIR`, the directory holding the scripts and case sources. -/
def scriptDir : String := "simulationCases"

/-- `CASE_DIR="$SCRIPT_DIR/$CASE_NAME"`. -/
def caseDir (name : String) : String := scriptDir ++ "/" ++ name

/-- `CASE_SOURCE="$SCRIPT_DIR/$CASE_NAME.c"`. -/
def caseSource (name : String) : String := scriptDir ++ "/" ++ name ++ ".c"

/-- Destination of `cp "$CASE_SOURCE" "$CASE_DIR/"`. -/
def caseCopy (name : String) : String := caseDir name ++ "/" ++ name ++ ".c"

/-- The executable produced by `qcc ... -o "$CASE_DIR/$CASE_NAME"`. -/
def caseBin (name : String) : String := caseDir name ++ "/" ++ name

/-- Add a directory to the filesystem (`mkdir -p`: no-op when present). -/
def addDir (fs : FS) (d : String) : FS :=
  ⟨if d ∈ fs.dirs then fs.dirs else d :: fs.dirs, fs.files⟩

/-- Add a regular file to the filesystem (overwrite keeps one entry). -/
def addFile (fs : FS) (f : String) : FS :=
  ⟨fs.dirs, if f ∈ fs.files then fs.files else f :: fs.files⟩

/-- Is the path `x` the directory `d` itself or strictly below it? -/
def underDir (d x : String) : Bool :=
  x == d || x.startsWith (d ++ "/")

/-- `rm -rf d`: remove the directory and everything below it. -/
def removeUnder (fs : FS) (d : String) : FS :=
  ⟨fs.dirs.filter (fun x => !underDir d x),
   fs.files.filter (fun x => !underDir d x)⟩

/-- The usage line both scripts print to stderr when `$1` is missing/empty. -/
def usageLine (arg0 : String) : String := "Usage: " ++ arg0 ++ " <case-name>"

/-- `runCases.sh`: argument check, `mkdir -p`, `cp`, `qcc` compile from the
repository root, then execution of the binary from inside the case directory,
each step aborting the script on failure (`set -e`). -/
def runCases (arg0 : String) (arg : Option String) (env : Env) (fs : FS) : Outcome :=
  match arg with
  | none => ⟨1, [usageLine arg0], fs, []⟩
  | some name =>
    if name = "" then ⟨1, [usageLine arg0], fs, []⟩
    else
      let fs1 := addDir fs (caseDir name)
      if caseSource name ∈ fs.files then
        let fs2 := addFile fs1 (caseCopy name)
        if env.compileExit = 0 then
          let fs3 := addFile fs2 (caseBin name)
          ⟨env.execExit, if env.execExit = 0 then [] else env.execMsg, fs3,
           [Action.mkdirP (caseDir name),
            Action.copyFile (caseSource name) (caseCopy name),
            Action.compile (caseSource name) (caseBin name),
            Action.execute (caseDir name) (caseBin name)]⟩
        else
          ⟨env.compileExit, env.compileMsg, fs2,
           [Action.mkdirP (caseDir name),
            Action.copyFile (caseSource name) (caseCopy name),
            Action.compile (caseSource name) (caseBin name)]⟩
      else
        ⟨1, env.cpMsg, fs1,
         [Action.mkdirP (caseDir name),
          Action.copyFile (caseSource name) (caseCopy name)]⟩

/-- `cleanup.sh`: argument check then `rm -rf "$CASE_DIR"`; `rmExit`/`rmMsg`
model the exit status and stderr of `rm` (0 in every ordinary run, `-f`
suppresses missing-target errors; a nonzero status aborts via `set -e`). -/
def cleanup (arg0 : String) (arg : Option String) (rmExit : ℕ) (rmMsg : List String)
    (fs : FS) : Outcome :=
  match arg with
  | none => ⟨1, [usageLine arg0], fs, []⟩
  | some name =>
    if name = "" then ⟨1, [usageLine arg0], fs, []⟩
    else if rmExit = 0 then
      ⟨0, [], removeUnder fs (caseDir name), [Action.removeDir (caseDir name)]⟩
    else
      ⟨rmExit, rmMsg, fs, [Action.removeDir (caseDir name)]⟩

theorem mem_addFile_self (fs : FS) (f : String) : f ∈ (addFile fs f).files := by
  unfold addFile
  by_cases h : f ∈ fs.files <;> simp [h]

theorem mem_addFile_of_mem (fs : FS) (g f : String) (h : g ∈ fs.files) :
    g ∈ (addFile fs f).files := by
  unfold addFile
  by_cases hf : f ∈ fs.files <;> simp [hf, h]

theorem mem_addDir_self (fs : FS) (d : String) : d ∈ (addDir fs d).dirs := by
  unfold addDir
  by_cases h : d ∈ fs.dirs <;> simp [h]

theorem addFile_dirs (fs : FS) (f : String) : (addFile fs f).dirs = fs.dirs := rfl

theorem filter_same {α : Type} (p : α → Bool) (l : List α) :
    (l.filter p).filter p = l.filter p := by
  induction l with
  | nil => rfl
  | cons a t ih =>
    by_cases h : p a <;> simp [List.filter_cons, h, ih]

theorem removeUnder_idem (fs : FS) (d : String) :
    removeUnder (removeUnder fs d) d = removeUnder fs d := by
  unfold removeUnder
  simp [filter_same]

theorem all_filter_not {α : Type} (p : α → Bool) (l : List α) :
    (l.filter (fun x => !p x)).all (fun x => !p x) = true := by
  simp only [List.all_eq_true, List.mem_filter]
  exact fun x hx => hx.2

end Scripts

namespace KellerSegel

theorem stat_c1_reaction (kb : ℚ) :
    k * ka + k * (ka * (kb / ka) - kb - 1) * ka = 0 := by
  simp only [k, ka]
  field_simp
  ring

theorem stat_c2_reaction (kb : ℚ) :
    k * kb * ka + (-(k * ka ^ 2)) * (kb / ka) = 0 := by
  simp only [k, ka]
  field_simp
  ring

theorem stat_beta1_le (kb : ℚ) (p : Idx) :
    k * ((statState kb).c1 p * (statState kb).c2 p - (statState kb).kb - 1) ≤ 0 := by
  simp only [statState, k, ka]
  have h : (9 / 2 : ℚ) * (kb / (9 / 2)) = kb := by
    field_simp
    ring
  rw [h]
  norm_num

theorem stat_beta2_le (kb : ℚ) (p : Idx) :
    -(k * ((statState kb).c1 p) ^ 2) ≤ 0 := by
  simp only [statState, k, ka]
  norm_num

theorem stat_solves_c1 (kb dt : ℚ) :
    solves 1 dt (fun _ => k * ka)
      (fun p => k * ((statState kb).c1 p * (statState kb).c2 p - (statState kb).kb - 1))
      (statState kb).c1 (statState kb).c1 := by
  intro p
  have hl : lap (statState kb).c1 p = 0 := lap_const ka p
  rw [hl]
  have h := stat_c1_reaction kb
  simp only [statState, k, ka] at h ⊢
  linear_combination dt * h

theorem stat_solves_c2 (kb dt : ℚ) :
    solves D dt (fun p => k * (statState kb).kb * (statState kb).c1 p)
      (fun p => -(k * ((statState kb).c1 p) ^ 2))
      (statState kb).c2 (statState kb).c2 := by
  intro p
  have hl : lap (statState kb).c2 p = 0 := lap_const (kb / ka) p
  rw [hl]
  have h := stat_c2_reaction kb
  simp only [statState, k, ka, D] at h ⊢
  linear_combination dt * h

/-- The stationary state is a solution of one integration step (with any
admissible timestep). -/
theorem stat_step_self (kb : ℚ) :
    integrationStep (statState kb) (statState kb) :=
  ⟨rfl, 1, by norm_num, le_refl 1, stat_solves_c1 kb 1, stat_solves_c2 kb 1⟩

/-- Any state reachable from the stationary state in one integration step is
the stationary state itself (uniqueness of the implicit solves via the
discrete maximum principle). -/
theorem step_from_stat (kb : ℚ) (s' : SimState)
    (h : integrationStep (statState kb) s') : s' = statState kb := by
  obtain ⟨hkb, dt, hdt0, _hdt1, h1, h2⟩ := h
  have hc1 : s'.c1 = (statState kb).c1 :=
    solves_unique 1 dt _ _ _ _ _ hdt0 (by norm_num) (stat_beta1_le kb)
      h1 (stat_solves_c1 kb dt)
  rw [hc1] at h2
  have hc2 : s'.c2 = (statState kb).c2 :=
    solves_unique D dt _ _ _ _ _ hdt0 (by norm_num [D]) (stat_beta2_le kb)
      h2 (stat_solves_c2 kb dt)
  exact (SimState.ext_iff' s' (statState kb)).mpr ⟨hkb, hc1, hc2⟩

theorem steps_from_stat (kb : ℚ) :
    ∀ (n : ℕ) (s : SimState), steps n (statState kb) s → s = statState kb := by
  intro n
  induction n with
  | zero => exact fun s h => h
  | succ m ih =>
    intro s h
    obtain ⟨mid, hstep, hrest⟩ := h
    rw [step_from_stat kb mid hstep] at hrest
    exact ih s hrest

/-- `event init` with zero perturbation produces exactly the stationary state. -/
theorem init_zero_noise (nu mu : ℚ) (s0 : SimState) :
    initEvent nu mu (fun _ => 0) s0 = statState (kbOf nu mu) := by
  rw [SimState.ext_iff']
  refine ⟨rfl, rfl, funext fun p => ?_⟩
  simp [initEvent, statState]

end KellerSegel

/-- Claim C1: if the fields start exactly at the stationary solution
(`C1 = ka`, `C2 = kb/ka` at every grid point, zero perturbation — which is
what `event init` produces with zero noise), then every integration step
leaves both fields unchanged, because the `C1` sources `r = k*ka` and
`beta*C1 = k*(C1*C2 - kb - 1)*C1` sum to zero and the `C2` sources
`r = k*kb*C1` and `beta*C2 = -k*C1^2*C2` sum to zero; hence the state stays
at the fixed point after any number of integration steps. -/
theorem stationary_state_invariant (kb : ℚ) (n : ℕ) (s : SimState)
    (h : KellerSegel.steps n (KellerSegel.statState kb) s) :
    s = KellerSegel.statState kb ∧
    (∀ p : Idx,
      KellerSegel.k * KellerSegel.ka +
        KellerSegel.k * ((KellerSegel.statState kb).c1 p * (KellerSegel.statState kb).c2 p - kb - 1)
          * (KellerSegel.statState kb).c1 p = 0) ∧
    (∀ p : Idx,
      KellerSegel.k * kb * (KellerSegel.statState kb).c1 p +
        (-(KellerSegel.k * ((KellerSegel.statState kb).c1 p) ^ 2))
          * (KellerSegel.statState kb).c2 p = 0) ∧
    (∀ (nu mu : ℚ) (s0 : SimState),
      KellerSegel.initEvent nu mu (fun _ => 0) s0 = KellerSegel.statState (KellerSegel.kbOf nu mu)) :=
  ⟨KellerSegel.steps_from_stat kb n s h,
   fun _ => KellerSegel.stat_c1_reaction kb,
   fun _ => KellerSegel.stat_c2_reaction kb,
   KellerSegel.init_zero_noise⟩

/-- Witness for claim C1 at `kb = 1`, `n = 1`: one concrete integration step
from the stationary state. -/
theorem stationary_state_invariant_witness :
    KellerSegel.steps 1 (KellerSegel.statState 1) (KellerSegel.statState 1) ∧
    KellerSegel.statState 1 = KellerSegel.statState 1 :=
  have hstep : KellerSegel.steps 1 (KellerSegel.statState 1) (KellerSegel.statState 1) :=
    ⟨KellerSegel.statState 1, KellerSegel.stat_step_self 1, rfl⟩
  ⟨hstep, (stationary_state_invariant 1 1 (KellerSegel.statState 1) hstep).1⟩

/-- Claim C2: the Keller-Segel case file and the Brusselator case file are
behaviorally equivalent programs — same parameters `k`, `ka`, `D`, same
`main()` (same 128×128 grid of size 64, tolerance 1e-4, same three `mu`
values in the same order), same derived `kb` and initial condition for any
noise sequence, same per-step integration dataflow and implicit-solve
semantics, same movie frames and progress lines, and same final image. -/
theorem cases_behaviorally_equal :
    KellerSegel.k = Brusselator.k ∧
    KellerSegel.ka = Brusselator.ka ∧
    KellerSegel.D = Brusselator.D ∧
    KellerSegel.kbOf = Brusselator.kbOf ∧
    KellerSegel.mainProgram = Brusselator.mainProgram ∧
    KellerSegel.initEvent = Brusselator.initEvent ∧
    KellerSegel.movieFires = Brusselator.movieFires ∧
    KellerSegel.movieEvent = Brusselator.movieEvent ∧
    KellerSegel.iterationOutput = Brusselator.iterationOutput ∧
    KellerSegel.finalTime = Brusselator.finalTime ∧
    KellerSegel.finalEvent = Brusselator.finalEvent ∧
    KellerSegel.integrationEvent = Brusselator.integrationEvent ∧
    KellerSegel.integrationStep = Brusselator.integrationStep :=
  ⟨rfl, rfl, rfl, rfl, rfl, rfl, rfl, rfl, rfl, rfl, rfl, rfl, rfl⟩

/-- Claim C3 counterexample: at time-loop iteration `i = 2` the simulation
writes no progress line at all (the `movie` event fires only at
`i = 1, 11, 21, …`), refuting "for every iteration of the time loop, the
simulation writes one progress line". -/
theorem progress_line_not_every_iteration :
    (KellerSegel.iterationOutput 2 0 0 0 0 (fun _ => 0)).countP isProgressLine = 0 := by
  decide

/-- Claim C3 (amended): the progress line (iteration index, simulation time,
timestep, and the two diffusion-solver iteration counts, written to stderr)
is produced exactly at the iterations where the `movie` event fires, i.e. at
`i = 1, 11, 21, …` — every 10th iteration starting from iteration 1 — and at
no other iteration; when it fires, exactly one such line is written. -/
theorem progress_line_every_tenth_iteration (i : ℕ) (t dt : ℚ) (mg1 mg2 : ℕ)
    (c1 : GridField) :
    KellerSegel.iterationOutput i t dt mg1 mg2 c1 =
      (if KellerSegel.movieFires i then
        [OutputAct.ppm ⟨FileName.lit ("f.mp4"), 200, true, 2⟩ c1,
         OutputAct.stderrLine i t dt mg1 mg2]
       else []) ∧
    (KellerSegel.iterationOutput i t dt mg1 mg2 c1).countP isProgressLine =
      (if KellerSegel.movieFires i then 1 else 0) ∧
    (KellerSegel.movieFires i = true ↔ ∃ j, i = 1 + 10 * j) := by
  refine ⟨rfl, ?_, ?_⟩
  · by_cases h : KellerSegel.movieFires i <;>
      simp [KellerSegel.iterationOutput, KellerSegel.movieEvent, h,
        List.countP_cons, isProgressLine]
  · constructor
    · intro h
      simp only [KellerSegel.movieFires, Bool.and_eq_true, decide_eq_true_eq] at h
      exact ⟨(i - 1) / 10, by omega⟩
    · rintro ⟨j, rfl⟩
      simp only [KellerSegel.movieFires, Bool.and_eq_true, decide_eq_true_eq]
      omega

/-- Claim C7: `main()` performs exactly three sequential runs, setting `mu`
immediately before each; and `event init` at iteration 0 of each run
reinitializes `kb`, `C1` and `C2` from scratch — its result does not depend
on the state left by a previous run, and it overwrites `kb` and both fields
at every grid point. -/
theorem main_three_runs_reinit :
    KellerSegel.mainProgram =
      [MainCmd.initGrid 128, MainCmd.setSize 64, MainCmd.setTolerance (1 / 10000)]
        ++ [MainCmd.setMu (4 / 100), MainCmd.runCase]
        ++ [MainCmd.setMu (1 / 10), MainCmd.runCase]
        ++ [MainCmd.setMu (98 / 100), MainCmd.runCase] ∧
    KellerSegel.mainProgram.countP isRunCmd = 3 ∧
    (∀ (nu mu : ℚ) (noise : GridField) (s s' : SimState),
      KellerSegel.initEvent nu mu noise s = KellerSegel.initEvent nu mu noise s') ∧
    (∀ (nu mu : ℚ) (noise : GridField) (s : SimState),
      (KellerSegel.initEvent nu mu noise s).kb = KellerSegel.kbOf nu mu ∧
      (KellerSegel.initEvent nu mu noise s).c1 = (fun _ => KellerSegel.ka) ∧
      (KellerSegel.initEvent nu mu noise s).c2 =
        (fun p => KellerSegel.kbOf nu mu / KellerSegel.ka + (1 / 100) * noise p)) := by
  refine ⟨rfl, by decide, fun nu mu noise s s' => rfl, fun nu mu noise s => ⟨rfl, rfl, rfl⟩⟩

/-- Claim C8: every run operates on the grid configured once in `main()`
before the three runs: `init_grid (128)` (a 128×128 2D multigrid) and
`size (64)` (a 64×64 physical domain); no grid-configuration call occurs
after the setup prefix, so all three runs use the identical grid. -/
theorem grid_fixed_before_runs :
    KellerSegel.mainProgram.take 3 =
      [MainCmd.initGrid 128, MainCmd.setSize 64, MainCmd.setTolerance (1 / 10000)] ∧
    (KellerSegel.mainProgram.drop 3).all (fun c => !isGridCmd c) = true ∧
    KellerSegel.mainProgram.filter isGridCmd =
      [MainCmd.initGrid 128, MainCmd.setSize 64] ∧
    KellerSegel.mainProgram.countP isRunCmd = 3 := by
  refine ⟨rfl, by decide, by decide, by decide⟩

/-- Claim C10: within a single integration step, the second (`C2`) diffusion
solve receives `r = k*kb*C1` and `beta = -k*C1^2` computed from the `C1`
field already updated by the first diffusion solve of the same step — not
from the pre-step `C1` — and the same scratch fields `r`, `beta` are reused
for both solves (after the event they hold the second solve's values).  The
final conjunct exhibits a run in which the updated-`C1` sources differ from
the pre-step-`C1` sources, so the distinction is observable. -/
theorem second_solve_uses_updated_c1 :
    (∀ (solve1 solve2 : GridField → GridField → GridField → GridField) (s : SimState),
      (KellerSegel.integrationEvent solve1 solve2 s).2.2 =
        [{ usesD := false, input := s.c1, r := fun _ => KellerSegel.k * KellerSegel.ka,
           beta := fun p => KellerSegel.k * (s.c1 p * s.c2 p - s.kb - 1) },
         { usesD := true, input := s.c2,
           r := fun p => KellerSegel.k * s.kb *
             ((KellerSegel.integrationEvent solve1 solve2 s).1.c1 p),
           beta := fun p => -(KellerSegel.k *
             ((KellerSegel.integrationEvent solve1 solve2 s).1.c1 p) ^ 2) }] ∧
      (KellerSegel.integrationEvent solve1 solve2 s).1.c1 =
        solve1 s.c1 (fun _ => KellerSegel.k * KellerSegel.ka)
          (fun p => KellerSegel.k * (s.c1 p * s.c2 p - s.kb - 1)) ∧
      (KellerSegel.integrationEvent solve1 solve2 s).2.1 =
        { r := fun p => KellerSegel.k * s.kb *
            ((KellerSegel.integrationEvent solve1 solve2 s).1.c1 p),
          beta := fun p => -(KellerSegel.k *
            ((KellerSegel.integrationEvent solve1 solve2 s).1.c1 p) ^ 2) }) ∧
    (∃ (solve1 solve2 : GridField → GridField → GridField → GridField)
        (s : SimState) (c1call c2call : DiffCall) (p : Idx),
      (KellerSegel.integrationEvent solve1 solve2 s).2.2 = [c1call, c2call] ∧
      c2call.r p ≠ KellerSegel.k * s.kb * s.c1 p) := by
  constructor
  · exact fun solve1 solve2 s => ⟨rfl, rfl, rfl⟩
  · refine ⟨fun _ _ _ => (fun _ => 2), fun _ _ _ => (fun _ => 0),
      { kb := 1, c1 := fun _ => 1, c2 := fun _ => 1 }, _, _, (0, 0), rfl, ?_⟩
    simp [KellerSegel.k]

/-- Claim C4: invoked with no case-name argument, both `runCases.sh` and
`cleanup.sh` exit with a non-zero status (namely 1), print the usage message
to standard error, and perform no other action: the filesystem is unchanged
and no command is run. -/
theorem scripts_usage_on_missing_arg (arg0 : String) (env : Scripts.Env)
    (rmExit : ℕ) (rmMsg : List String) (fs : Scripts.FS) :
    (Scripts.runCases arg0 none env fs).exitCode = 1 ∧
    (Scripts.runCases arg0 none env fs).exitCode ≠ 0 ∧
    (Scripts.runCases arg0 none env fs).stderr = [Scripts.usageLine arg0] ∧
    (Scripts.runCases arg0 none env fs).fs = fs ∧
    (Scripts.runCases arg0 none env fs).trace = [] ∧
    (Scripts.cleanup arg0 none rmExit rmMsg fs).exitCode = 1 ∧
    (Scripts.cleanup arg0 none rmExit rmMsg fs).exitCode ≠ 0 ∧
    (Scripts.cleanup arg0 none rmExit rmMsg fs).stderr = [Scripts.usageLine arg0] ∧
    (Scripts.cleanup arg0 none rmExit rmMsg fs).fs = fs ∧
    (Scripts.cleanup arg0 none rmExit rmMsg fs).trace = [] :=
  ⟨rfl, Nat.one_ne_zero, rfl, rfl, rfl, rfl, Nat.one_ne_zero, rfl, rfl, rfl⟩

/-- Claim C5: `runCases.sh` with a valid case name `N` (source present,
compile and run succeeding) runs, in exactly this order, `mkdir -p` of
`simulationCases/N/`, the copy of `N.c` into it, the compile producing the
executable in that directory, and the execution of the binary with the output
directory as working directory; afterwards the directory exists and contains
both the source copy and the built executable, and the script exits 0. -/
theorem runCases_success_sequence (arg0 name : String) (env : Scripts.Env)
    (fs : Scripts.FS) (hname : name ≠ "")
    (hsrc : Scripts.caseSource name ∈ fs.files)
    (hc : env.compileExit = 0) (he : env.execExit = 0) :
    (Scripts.runCases arg0 (some name) env fs).trace =
      [Scripts.Action.mkdirP (Scripts.caseDir name),
       Scripts.Action.copyFile (Scripts.caseSource name) (Scripts.caseCopy name),
       Scripts.Action.compile (Scripts.caseSource name) (Scripts.caseBin name),
       Scripts.Action.execute (Scripts.caseDir name) (Scripts.caseBin name)] ∧
    Scripts.caseCopy name ∈ (Scripts.runCases arg0 (some name) env fs).fs.files ∧
    Scripts.caseBin name ∈ (Scripts.runCases arg0 (some name) env fs).fs.files ∧
    Scripts.caseDir name ∈ (Scripts.runCases arg0 (some name) env fs).fs.dirs ∧
    (Scripts.runCases arg0 (some name) env fs).exitCode = 0 := by
  have hred : Scripts.runCases arg0 (some name) env fs =
      ⟨env.execExit, if env.execExit = 0 then [] else env.execMsg,
       Scripts.addFile (Scripts.addFile (Scripts.addDir fs (Scripts.caseDir name))
         (Scripts.caseCopy name)) (Scripts.caseBin name),
       [Scripts.Action.mkdirP (Scripts.caseDir name),
        Scripts.Action.copyFile (Scripts.caseSource name) (Scripts.caseCopy name),
        Scripts.Action.compile (Scripts.caseSource name) (Scripts.caseBin name),
        Scripts.Action.execute (Scripts.caseDir name) (Scripts.caseBin name)]⟩ := by
    simp only [Scripts.runCases]
    rw [if_neg hname, if_pos hsrc, if_pos hc]
  rw [hred]
  refine ⟨rfl, ?_, ?_, ?_, he⟩
  · exact Scripts.mem_addFile_of_mem _ _ _ (Scripts.mem_addFile_self _ _)
  · exact Scripts.mem_addFile_self _ _
  · exact Scripts.mem_addDir_self fs (Scripts.caseDir name)

/-- Witness for claim C5 on a concrete filesystem holding
`simulationCases/keller-segel.c`, with compile and run succeeding. -/
theorem runCases_success_sequence_witness :
    ("keller-segel" : String) ≠ "" ∧
    Scripts.caseSource ("keller-segel") ∈
      (⟨[("simulationCases")], [("simulationCases/keller-segel.c")]⟩ : Scripts.FS).files ∧
    (⟨0, [], 0, [], []⟩ : Scripts.Env).compileExit = 0 ∧
    (⟨0, [], 0, [], []⟩ : Scripts.Env).execExit = 0 ∧
    (Scripts.runCases ("./runCases.sh") (some ("keller-segel")) ⟨0, [], 0, [], []⟩
      ⟨[("simulationCases")], [("simulationCases/keller-segel.c")]⟩).exitCode = 0 :=
  ⟨by decide, by decide, rfl, rfl,
   (runCases_success_sequence ("./runCases.sh") ("keller-segel") ⟨0, [], 0, [], []⟩
     ⟨[("simulationCases")], [("simulationCases/keller-segel.c")]⟩
     (by decide) (by decide) rfl rfl).2.2.2.2⟩

/-- Claim C6: `cleanup.sh N` recursively removes the `simulationCases/N/`
output directory — afterwards neither the directory nor anything below it
exists — exits 0, and the operation is idempotent: invoking it again on the
already-removed directory also exits 0 and leaves the filesystem unchanged
(`rm -rf` force-remove semantics). -/
theorem cleanup_removes_and_idempotent (arg0 name : String) (fs : Scripts.FS)
    (hname : name ≠ "") :
    (Scripts.cleanup arg0 (some name) 0 [] fs).exitCode = 0 ∧
    (Scripts.cleanup arg0 (some name) 0 [] fs).trace =
      [Scripts.Action.removeDir (Scripts.caseDir name)] ∧
    ((Scripts.cleanup arg0 (some name) 0 [] fs).fs.dirs.all
      (fun x => !Scripts.underDir (Scripts.caseDir name) x)) = true ∧
    ((Scripts.cleanup arg0 (some name) 0 [] fs).fs.files.all
      (fun x => !Scripts.underDir (Scripts.caseDir name) x)) = true ∧
    (Scripts.cleanup arg0 (some name) 0 []
        (Scripts.cleanup arg0 (some name) 0 [] fs).fs).fs =
      (Scripts.cleanup arg0 (some name) 0 [] fs).fs ∧
    (Scripts.cleanup arg0 (some name) 0 []
        (Scripts.cleanup arg0 (some name) 0 [] fs).fs).exitCode = 0 := by
  have hred : ∀ g : Scripts.FS, Scripts.cleanup arg0 (some name) 0 [] g =
      ⟨0, [], Scripts.removeUnder g (Scripts.caseDir name),
       [Scripts.Action.removeDir (Scripts.caseDir name)]⟩ := by
    intro g
    simp only [Scripts.cleanup]
    rw [if_neg hname]
    rfl
  rw [hred, hred]
  exact ⟨rfl, rfl, Scripts.all_filter_not _ _, Scripts.all_filter_not _ _,
    Scripts.removeUnder_idem fs (Scripts.caseDir name), rfl⟩

/-- Witness for claim C6 on a concrete filesystem with outputs below
`simulationCases/keller-segel/`. -/
theorem cleanup_removes_and_idempotent_witness :
    ("keller-segel" : String) ≠ "" ∧
    (Scripts.cleanup ("./cleanup.sh") (some ("keller-segel")) 0 []
      ⟨[("simulationCases"), ("simulationCases/keller-segel")],
       [("simulationCases/keller-segel.c"), ("simulationCases/keller-segel/f.mp4")]⟩).exitCode = 0 :=
  ⟨by decide,
   (cleanup_removes_and_idempotent ("./cleanup.sh") ("keller-segel")
     ⟨[("simulationCases"), ("simulationCases/keller-segel")],
      [("simulationCases/keller-segel.c"), ("simulationCases/keller-segel/f.mp4")]⟩
     (by decide)).1⟩

/-- Claim C9: under `set -euo pipefail` any failing command aborts the script
immediately with that command's exit status and stderr message, and no
subsequent command runs.  For `runCases.sh`: a failing copy (missing source)
stops before compile and execution with status 1 and leaves the filesystem
with only the created directory; a failing compile stops before execution
with the compiler's status and adds no executable; a failing binary ends the
script with the binary's status.  For `cleanup.sh`: a failing `rm` ends the
script with `rm`'s status. -/
theorem scripts_strict_failure_propagation (arg0 name : String) (env : Scripts.Env)
    (fs : Scripts.FS) (rmExit : ℕ) (rmMsg : List String) (hname : name ≠ "") :
    (Scripts.caseSource name ∉ fs.files →
      (Scripts.runCases arg0 (some name) env fs).exitCode = 1 ∧
      (Scripts.runCases arg0 (some name) env fs).stderr = env.cpMsg ∧
      (Scripts.runCases arg0 (some name) env fs).trace =
        [Scripts.Action.mkdirP (Scripts.caseDir name),
         Scripts.Action.copyFile (Scripts.caseSource name) (Scripts.caseCopy name)] ∧
      (Scripts.runCases arg0 (some name) env fs).fs =
        Scripts.addDir fs (Scripts.caseDir name)) ∧
    (Scripts.caseSource name ∈ fs.files → env.compileExit ≠ 0 →
      (Scripts.runCases arg0 (some name) env fs).exitCode = env.compileExit ∧
      (Scripts.runCases arg0 (some name) env fs).stderr = env.compileMsg ∧
      (Scripts.runCases arg0 (some name) env fs).trace =
        [Scripts.Action.mkdirP (Scripts.caseDir name),
         Scripts.Action.copyFile (Scripts.caseSource name) (Scripts.caseCopy name),
         Scripts.Action.compile (Scripts.caseSource name) (Scripts.caseBin name)] ∧
      (Scripts.runCases arg0 (some name) env fs).fs =
        Scripts.addFile (Scripts.addDir fs (Scripts.caseDir name)) (Scripts.caseCopy name)) ∧
    (Scripts.caseSource name ∈ fs.files → env.compileExit = 0 → env.execExit ≠ 0 →
      (Scripts.runCases arg0 (some name) env fs).exitCode = env.execExit ∧
      (Scripts.runCases arg0 (some name) env fs).stderr = env.execMsg) ∧
    (rmExit ≠ 0 →
      (Scripts.cleanup arg0 (some name) rmExit rmMsg fs).exitCode = rmExit ∧
      (Scripts.cleanup arg0 (some name) rmExit rmMsg fs).stderr = rmMsg ∧
      (Scripts.cleanup arg0 (some name) rmExit rmMsg fs).fs = fs ∧
      (Scripts.cleanup arg0 (some name) rmExit rmMsg fs).trace =
        [Scripts.Action.removeDir (Scripts.caseDir name)]) := by
  refine ⟨?_, ?_, ?_, ?_⟩
  · intro hsrc
    have hred : Scripts.runCases arg0 (some name) env fs =
        ⟨1, env.cpMsg, Scripts.addDir fs (Scripts.caseDir name),
         [Scripts.Action.mkdirP (Scripts.caseDir name),
          Scripts.Action.copyFile (Scripts.caseSource name) (Scripts.caseCopy name)]⟩ := by
      simp only [Scripts.runCases]
      rw [if_neg hname, if_neg hsrc]
    rw [hred]
    exact ⟨rfl, rfl, rfl, rfl⟩
  · intro hsrc hcomp
    have hred : Scripts.runCases arg0 (some name) env fs =
        ⟨env.compileExit, env.compileMsg,
         Scripts.addFile (Scripts.addDir fs (Scripts.caseDir name)) (Scripts.caseCopy name),
         [Scripts.Action.mkdirP (Scripts.caseDir name),
          Scripts.Action.copyFile (Scripts.caseSource name) (Scripts.caseCopy name),
          Scripts.Action.compile (Scripts.caseSource name) (Scripts.caseBin name)]⟩ := by
      simp only [Scripts.runCases]
      rw [if_neg hname, if_pos hsrc, if_neg hcomp]
    rw [hred]
    exact ⟨rfl, rfl, rfl, rfl⟩
  · intro hsrc hcomp hexec
    have hred : Scripts.runCases arg0 (some name) env fs =
        ⟨env.execExit, if env.execExit = 0 then [] else env.execMsg,
         Scripts.addFile (Scripts.addFile (Scripts.addDir fs (Scripts.caseDir name))
           (Scripts.caseCopy name)) (Scripts.caseBin name),
         [Scripts.Action.mkdirP (Scripts.caseDir name),
          Scripts.Action.copyFile (Scripts.caseSource name) (Scripts.caseCopy name),
          Scripts.Action.compile (Scripts.caseSource name) (Scripts.caseBin name),
          Scripts.Action.execute (Scripts.caseDir name) (Scripts.caseBin name)]⟩ := by
      simp only [Scripts.runCases]
      rw [if_neg hname, if_pos hsrc, if_pos hcomp]
    rw [hred]
    exact ⟨rfl, by simp only [if_neg hexec]⟩
  · intro hrm
    have hred : Scripts.cleanup arg0 (some name) rmExit rmMsg fs =
        ⟨rmExit, rmMsg, fs, [Scripts.Action.removeDir (Scripts.caseDir name)]⟩ := by
      simp only [Scripts.cleanup]
      rw [if_neg hname, if_neg hrm]
    rw [hred]
    exact ⟨rfl, rfl, rfl, rfl⟩

/-- Witness for claim C9: concrete failing compile (status 2) and failing
`rm` (status 3). -/
theorem scripts_strict_failure_propagation_witness :
    ("keller-segel" : String) ≠ "" ∧
    (Scripts.runCases ("./runCases.sh") (some ("keller-segel"))
      ⟨2, [("qcc: error")], 0, [], []⟩
      ⟨[("simulationCases")], [("simulationCases/keller-segel.c")]⟩).exitCode = 2 ∧
    (Scripts.cleanup ("./cleanup.sh") (some ("keller-segel")) 3 [("rm: error")]
      ⟨[("simulationCases")], []⟩).exitCode = 3 :=
  ⟨by decide,
   ((scripts_strict_failure_propagation ("./runCases.sh") ("keller-segel")
      ⟨2, [("qcc: error")], 0, [], []⟩
      ⟨[("simulationCases")], [("simulationCases/keller-segel.c")]⟩ 3 [("rm: error")]
      (by decide)).2.1 (by decide) (by decide)).1,
   ((scripts_strict_failure_propagation ("./cleanup.sh") ("keller-segel")
      ⟨2, [("qcc: error")], 0, [], []⟩
      ⟨[("simulationCases")], []⟩ 3 [("rm: error")]
      (by decide)).2.2.2 (by decide)).1⟩
